import Mathlib

/-!
A verification development for the `schedule_planner` package: a shallow
embedding of its time-of-day arithmetic, event model and schedule container,
together with theorems about the behaviours they implement.

Modelling conventions:
* `Time` (time_of_day.py): the record of the `hour`/`minute`/`second` fields.
  The backing `datetime.time` value compares lexicographically on
  (hour, minute, second), which `Time.ltB` mirrors.
* `Day` (time_periods.py): a calendar day is represented by its proleptic
  ordinal (an `Int`, the count of days from a fixed epoch).  Python's
  `date` equality/ordering and `date + timedelta(days=k)` correspond
  exactly to `Int` equality/ordering and `+ k` on the ordinal.
* Python integers are `Int`; machine overflow does not arise.
* Stateful methods become functions from the receiver to (result, new state).
-/

/-- The `Time` class of time_of_day.py: hour/minute/second fields. -/
structure Time where
  hour : Nat
  minute : Nat
  second : Nat
deriving DecidableEq, Repr

/-- Validity enforced by `Time.__init__` (out-of-range components raise). -/
def Time.valid (t : Time) : Prop :=
  t.hour ≤ 23 ∧ t.minute ≤ 59 ∧ t.second ≤ 59

/-- `Time.is_before` / comparison of the backing `datetime.time` values:
lexicographic on (hour, minute, second). -/
def Time.ltB (a b : Time) : Bool :=
  decide (a.hour < b.hour) ||
    (decide (a.hour = b.hour) &&
      (decide (a.minute < b.minute) ||
        (decide (a.minute = b.minute) && decide (a.second < b.second))))

/-- `Time.is_after`: `self._time > other._time`. -/
def Time.is_after (a b : Time) : Bool := Time.ltB b a

/-- `Time.to_minutes`: `hour * 60 + minute` (seconds are ignored). -/
def Time.to_minutes (t : Time) : Nat := t.hour * 60 + t.minute

/-- `Time.difference_in_minutes`: `self.to_minutes() - other.to_minutes()`,
a signed quantity. -/
def Time.difference_in_minutes (a b : Time) : Int :=
  (a.to_minutes : Int) - (b.to_minutes : Int)

/-- `Time.add_minutes`: wraps the minute total around midnight and rebuilds
the Time from the new hour/minute, keeping `self.second`. -/
def Time.add_minutes (t : Time) (minutes : Int) : Time :=
  let total_minutes : Int := (t.to_minutes : Int) + minutes
  let total : Int := total_minutes % (24 * 60)
  { hour := (total / 60).toNat, minute := (total % 60).toNat, second := t.second }

theorem Time.ltB_iff (a b : Time) :
    Time.ltB a b = true ↔
      (a.hour < b.hour ∨ (a.hour = b.hour ∧
        (a.minute < b.minute ∨ (a.minute = b.minute ∧ a.second < b.second)))) := by
  simp [Time.ltB]

theorem Time.ltB_eq_false_iff (a b : Time) :
    Time.ltB a b = false ↔
      ¬ (a.hour < b.hour ∨ (a.hour = b.hour ∧
        (a.minute < b.minute ∨ (a.minute = b.minute ∧ a.second < b.second)))) := by
  rw [← Time.ltB_iff]
  exact ⟨fun h => by simp [h], fun h => by simpa using h⟩

theorem Time.eq_iff (a b : Time) :
    a = b ↔ (a.hour = b.hour ∧ a.minute = b.minute ∧ a.second = b.second) := by
  obtain ⟨h1, m1, s1⟩ := a
  obtain ⟨h2, m2, s2⟩ := b
  simp [Time.mk.injEq]

/-- The `TimeRange` class of time_of_day.py. -/
structure TimeRange where
  start_time : Time
  end_time : Time
deriving DecidableEq, Repr

/-- Validity enforced by `TimeRange.__init__`: end is not before start. -/
def TimeRange.valid (r : TimeRange) : Prop :=
  Time.ltB r.end_time r.start_time = false

/-- `TimeRange.duration_minutes` as computed in `TimeRange.__init__`. -/
def TimeRange.duration_minutes (r : TimeRange) : Int :=
  Time.difference_in_minutes r.end_time r.start_time

/-- `TimeRange.overlaps_with`, with the two early returns of the source. -/
def TimeRange.overlaps_with (a b : TimeRange) : Bool :=
  if Time.ltB a.end_time b.start_time || a.end_time == b.start_time then false
  else if Time.ltB b.end_time a.start_time || b.end_time == a.start_time then false
  else true

theorem TimeRange.overlaps_with_eq (a b : TimeRange) :
    a.overlaps_with b =
      (!(Time.ltB a.end_time b.start_time || a.end_time == b.start_time) &&
       !(Time.ltB b.end_time a.start_time || b.end_time == a.start_time)) := by
  unfold TimeRange.overlaps_with
  cases h1 : (Time.ltB a.end_time b.start_time || a.end_time == b.start_time) <;>
    cases h2 : (Time.ltB b.end_time a.start_time || b.end_time == a.start_time) <;>
      simp [h1, h2]

theorem TimeRange.overlaps_with_comm (a b : TimeRange) :
    a.overlaps_with b = b.overlaps_with a := by
  rw [TimeRange.overlaps_with_eq, TimeRange.overlaps_with_eq, Bool.and_comm]

/-- C2: for all time ranges A and B, `A.overlaps_with(B)` holds iff
`A.end > B.start` and `B.end > A.start` under strict wall-clock
comparison, so ranges that merely touch at a boundary do not overlap. -/
theorem overlaps_with_strict_iff (A B : TimeRange) :
    A.overlaps_with B = true ↔
      (Time.ltB B.start_time A.end_time = true ∧
       Time.ltB A.start_time B.end_time = true) := by
  rw [TimeRange.overlaps_with_eq]
  obtain ⟨⟨h1, m1, s1⟩, ⟨h2, m2, s2⟩⟩ := A
  obtain ⟨⟨h3, m3, s3⟩, ⟨h4, m4, s4⟩⟩ := B
  simp only [Bool.and_eq_true, Bool.not_eq_true', Bool.or_eq_false_iff,
    beq_eq_false_iff_ne, ne_eq, Time.ltB_iff, Time.ltB_eq_false_iff, Time.eq_iff]
  omega

/-- C10: `Time.add_minutes` keeps the second component unchanged, computes
the new hour and minute from `(hour*60 + minute + delta) mod 1440`, and the
seconds neither take part in that arithmetic nor are reset by it. -/
theorem add_minutes_carries_seconds (t : Time) (delta : Int) :
    (t.add_minutes delta).second = t.second ∧
    ((t.add_minutes delta).hour * 60 + (t.add_minutes delta).minute : Int)
        = ((t.hour : Int) * 60 + t.minute + delta) % 1440 ∧
    (∀ s2 : Nat,
      (Time.add_minutes ⟨t.hour, t.minute, s2⟩ delta).hour = (t.add_minutes delta).hour ∧
      (Time.add_minutes ⟨t.hour, t.minute, s2⟩ delta).minute = (t.add_minutes delta).minute) := by
  refine ⟨rfl, ?_, fun s2 => ⟨rfl, rfl⟩⟩
  simp only [Time.add_minutes, Time.to_minutes]
  omega

/-- The `EventPriority` enum of events.py. -/
inductive EventPriority where
  | low
  | medium
  | high
  | urgent
deriving DecidableEq, Repr

/-- The `EventStatus` enum of events.py. -/
inductive EventStatus where
  | scheduled
  | in_progress
  | completed
  | cancelled
  | rescheduled
deriving DecidableEq, Repr

/-- An event as seen by the `Schedule` container: the fields of the base
`Event` class of events.py, plus `eid`, a tag standing for the Python
object identity (the source classes define no `__eq__`, so `in`, `remove`
and `!=` compare object identity; distinct objects receive distinct
`eid`s), and `etype`, the string `get_event_type()` returns for the
object's class. -/
structure Event where
  eid : Nat
  etype : String
  title : String
  day : Int
  time_range : TimeRange
  description : String
  priority : EventPriority
  status : EventStatus
  tags : List String
  notes : String
deriving DecidableEq, Repr

/-- `Event.get_duration_minutes`: delegates to the range. -/
def Event.get_duration_minutes (e : Event) : Int :=
  e.time_range.duration_minutes

/-- `Event.conflicts_with`: different day returns False, otherwise the
ranges are tested for overlap. -/
def Event.conflicts_with (a b : Event) : Bool :=
  if a.day ≠ b.day then false
  else a.time_range.overlaps_with b.time_range

/-- Ascending order on the sort key of `Schedule.get_events_on_day`:
`key=lambda e: e.time_range.start_time`.  `eventStartLE a b` says a's start
time is not after b's. -/
def eventStartLE (a b : Event) : Prop :=
  Time.ltB b.time_range.start_time a.time_range.start_time = false

instance : DecidableRel eventStartLE := fun a b =>
  inferInstanceAs
    (Decidable (Time.ltB b.time_range.start_time a.time_range.start_time = false))

theorem eventStartLE_total_thm (a b : Event) : eventStartLE a b ∨ eventStartLE b a := by
  unfold eventStartLE
  obtain ⟨hx, mx, sx⟩ := a.time_range.start_time
  obtain ⟨hy, my, sy⟩ := b.time_range.start_time
  simp only [Time.ltB_eq_false_iff]
  omega

theorem eventStartLE_trans_thm (a b c : Event) :
    eventStartLE a b → eventStartLE b c → eventStartLE a c := by
  unfold eventStartLE
  obtain ⟨hx, mx, sx⟩ := a.time_range.start_time
  obtain ⟨hy, my, sy⟩ := b.time_range.start_time
  obtain ⟨hz, mz, sz⟩ := c.time_range.start_time
  simp only [Time.ltB_eq_false_iff]
  omega

instance : IsTotal Event eventStartLE := ⟨eventStartLE_total_thm⟩

instance : IsTrans Event eventStartLE := ⟨eventStartLE_trans_thm⟩

theorem eventStartLE_of_start_eq {a b : Event}
    (h : a.time_range.start_time = b.time_range.start_time) : eventStartLE a b := by
  unfold eventStartLE
  rw [h]
  obtain ⟨hx, mx, sx⟩ := b.time_range.start_time
  simp only [Time.ltB_eq_false_iff]
  omega

/-- The `Schedule` class of schedule.py: the `events` list together with
the `_events_by_day` index (a `defaultdict(list)`, so a missing day reads
as the empty list). -/
structure Schedule where
  events : List Event
  eventsByDay : Int → List Event

/-- `Schedule.__init__`: no events, empty index. -/
def Schedule.empty : Schedule :=
  { events := [], eventsByDay := fun _ => [] }

/-- `Schedule.get_events_on_day`: copies the day's bucket and sorts it
ascending by start time.  Python's `list.sort` is a stable ascending sort;
insertion sort is stable and sorts ascending, and a stable sort of a list
under a total preorder is unique, so this is the same list `timsort`
produces. -/
def Schedule.get_events_on_day (s : Schedule) (day : Int) : List Event :=
  List.insertionSort eventStartLE (s.eventsByDay day)

/-- `Schedule.get_conflicting_events`: scans the (sorted) day bucket of the
candidate and keeps every other event that conflicts with it.  The `!=`
in the source is object identity, here `eid`-carrying structural
inequality. -/
def Schedule.get_conflicting_events (s : Schedule) (event : Event) : List Event :=
  (s.get_events_on_day event.day).filter
    (fun existing => !(existing == event) && event.conflicts_with existing)

/-- The unconditional tail of `Schedule.add_event`: append to `events` and
to the `event.day` bucket of the index. -/
def Schedule.appendEvent (s : Schedule) (event : Event) : Schedule :=
  { events := s.events ++ [event],
    eventsByDay := fun d =>
      if d = event.day then s.eventsByDay d ++ [event] else s.eventsByDay d }

/-- `Schedule.add_event`: with `check_conflicts` set, refuses (returns
False, state unchanged) when `get_conflicting_events` is non-empty;
otherwise appends to both the list and the index and returns True. -/
def Schedule.add_event (s : Schedule) (event : Event) (check_conflicts : Bool) :
    Bool × Schedule :=
  if check_conflicts && !(s.get_conflicting_events event).isEmpty then (false, s)
  else (true, s.appendEvent event)

/-- `Schedule.remove_event`: when the event is present (by identity) it is
removed from the `events` list and from its day bucket (both `list.remove`,
which drops the first matching element); otherwise nothing changes. -/
def Schedule.remove_event (s : Schedule) (event : Event) : Bool × Schedule :=
  if event ∈ s.events then
    (true,
      { events := s.events.erase event,
        eventsByDay := fun d =>
          if d = event.day then (s.eventsByDay d).erase event else s.eventsByDay d })
  else (false, s)

/-- One mutating call on a schedule: `add_event` or `remove_event`. -/
inductive ScheduleOp where
  | add (event : Event) (check_conflicts : Bool)
  | remove (event : Event)

/-- The state reached after one call. -/
def ScheduleOp.apply (s : Schedule) : ScheduleOp → Schedule
  | .add e c => (s.add_event e c).2
  | .remove e => (s.remove_event e).2

/-- The schedule built by a sequence of calls starting from `Schedule.__init__`. -/
def runOps (ops : List ScheduleOp) : Schedule :=
  ops.foldl ScheduleOp.apply Schedule.empty

/-- The day index agrees with the events list: every bucket holds exactly
the events of that day, in the order they occur in `events`. -/
def Schedule.Consistent (s : Schedule) : Prop :=
  ∀ d : Int, s.eventsByDay d = s.events.filter (fun e => e.day == d)

theorem Schedule.consistent_empty : Schedule.empty.Consistent := fun _ => rfl

theorem Schedule.Consistent.appendEvent {s : Schedule} (hs : s.Consistent) (e : Event) :
    (s.appendEvent e).Consistent := by
  intro d
  simp only [Schedule.appendEvent, hs d, List.filter_append]
  by_cases h : d = e.day
  · subst h
    simp [List.filter_cons]
  · have he : (e.day == d) = false := by
      simp only [beq_eq_false_iff_ne, ne_eq]
      exact fun hd => h hd.symm
    simp [List.filter_cons, he, h]

theorem Schedule.Consistent.add_event {s : Schedule} (hs : s.Consistent)
    (e : Event) (c : Bool) : (s.add_event e c).2.Consistent := by
  unfold Schedule.add_event
  by_cases h : (c && !(s.get_conflicting_events e).isEmpty) = true
  · simp only [h, if_true]
    exact hs
  · simp only [h, if_false]
    exact hs.appendEvent e

theorem Schedule.Consistent.remove_event {s : Schedule} (hs : s.Consistent)
    (e : Event) : (s.remove_event e).2.Consistent := by
  unfold Schedule.remove_event
  by_cases h : e ∈ s.events
  · simp only [h, if_true]
    intro d
    simp only [hs d]
    by_cases hd : d = e.day
    · subst hd
      simp [List.erase_filter]
    · simp only [hd, if_false]
      rw [← List.erase_filter]
      rw [List.erase_of_not_mem]
      intro hmem
      rw [List.mem_filter] at hmem
      have hday : e.day = d := by simpa using hmem.2
      exact hd hday.symm
  · simp only [h, if_false]
    exact hs

theorem Schedule.Consistent.applyOp {s : Schedule} (hs : s.Consistent) (op : ScheduleOp) :
    (ScheduleOp.apply s op).Consistent := by
  cases op with
  | add e c => exact hs.add_event e c
  | remove e => exact hs.remove_event e

theorem Schedule.Consistent.foldlOps {s : Schedule} (hs : s.Consistent) :
    ∀ ops : List ScheduleOp, (ops.foldl ScheduleOp.apply s).Consistent := by
  intro ops
  induction ops generalizing s with
  | nil => exact hs
  | cons op rest ih => exact ih (hs.applyOp op)

theorem consistent_runOps (ops : List ScheduleOp) : (runOps ops).Consistent :=
  Schedule.consistent_empty.foldlOps ops

/-- C1: starting from an empty schedule, after any sequence of
`add_event`/`remove_event` calls, `get_events_on_day(d)` is the stable
ascending sort (by time-range start) of exactly those events in `events`
whose day is `d` taken in their order in `events`; in particular it is a
permutation of that subset, it is sorted by start time, and two events
with equal start times appear in the insertion order of their addition. -/
theorem schedule_day_index_invariant (ops : List ScheduleOp) (d : Int) :
    (runOps ops).get_events_on_day d
        = List.insertionSort eventStartLE
            ((runOps ops).events.filter (fun e => e.day == d)) ∧
    ((runOps ops).get_events_on_day d).Perm
        ((runOps ops).events.filter (fun e => e.day == d)) ∧
    ((runOps ops).get_events_on_day d).Sorted eventStartLE ∧
    (∀ a b : Event, a.time_range.start_time = b.time_range.start_time →
      [a, b].Sublist ((runOps ops).events.filter (fun e => e.day == d)) →
      [a, b].Sublist ((runOps ops).get_events_on_day d)) := by
  have hc : (runOps ops).Consistent := consistent_runOps ops
  have h1 : (runOps ops).get_events_on_day d
      = List.insertionSort eventStartLE
          ((runOps ops).events.filter (fun e => e.day == d)) := by
    unfold Schedule.get_events_on_day
    rw [hc d]
  refine ⟨h1, ?_, ?_, ?_⟩
  · rw [h1]
    exact List.perm_insertionSort eventStartLE _
  · rw [h1]
    exact List.sorted_insertionSort eventStartLE _
  · intro a b hstart hsub
    rw [h1]
    exact List.pair_sublist_insertionSort (eventStartLE_of_start_eq hstart) hsub

/-- A concrete event used to exercise the schedule theorems: a 10:00-11:00
appointment on day 0. -/
def evtA : Event :=
  { eid := 1, etype := "Appointment", title := "A", day := 0,
    time_range := { start_time := ⟨10, 0, 0⟩, end_time := ⟨11, 0, 0⟩ },
    description := "", priority := .medium, status := .scheduled,
    tags := [], notes := "" }

/-- A second event with the same day and the same start time as `evtA`. -/
def evtB : Event :=
  { eid := 2, etype := "Appointment", title := "B", day := 0,
    time_range := { start_time := ⟨10, 0, 0⟩, end_time := ⟨12, 0, 0⟩ },
    description := "", priority := .medium, status := .scheduled,
    tags := [], notes := "" }

theorem schedule_day_index_invariant_witness :
    [evtA, evtB].Sublist
      ((runOps [.add evtA false, .add evtB false]).get_events_on_day 0) :=
  (schedule_day_index_invariant [.add evtA false, .add evtB false] 0).2.2.2
    evtA evtB rfl (by decide)

/-- `TimeRange.__init__` as a fallible constructor: `time_of_day.py`
raises ValueError when the end time is before the start time, modeled as
`none`. -/
def TimeRange.make (start_time end_time : Time) : Option TimeRange :=
  if Time.ltB end_time start_time then none
  else some { start_time := start_time, end_time := end_time }

/-- The body of the loop in `Schedule.get_free_time_slots` with the range
construction collapsed to an unchecked record build.  This error-free
variant agrees with the method wherever no inverted range is constructed;
`freeSlotsStepChecked` below carries the constructor's ValueError.  The
accumulator is the `free_slots` list built so far together with
`current_time`.  A gap of at least `slot_duration` minutes before the
event's start is appended as a slot, and the cursor moves to the event's
end only when that end is after the cursor. -/
def freeSlotsStep (slot_duration : Int) (acc : List TimeRange × Time) (event : Event) :
    List TimeRange × Time :=
  let fs :=
    if slot_duration ≤ Time.difference_in_minutes event.time_range.start_time acc.2
    then acc.1 ++ [{ start_time := acc.2, end_time := event.time_range.start_time }]
    else acc.1
  let cur :=
    if Time.is_after event.time_range.end_time acc.2
    then event.time_range.end_time else acc.2
  (fs, cur)

/-- The code after the loop in `Schedule.get_free_time_slots`, with the
range construction collapsed as in `freeSlotsStep`: append the slot from
the cursor to the 21:00 end of day when it is long enough. -/
def freeSlotsFinish (slot_duration : Int) (r : List TimeRange × Time) : List TimeRange :=
  if slot_duration ≤ Time.difference_in_minutes ⟨21, 0, 0⟩ r.2
  then r.1 ++ [{ start_time := r.2, end_time := ⟨21, 0, 0⟩ }]
  else r.1

/-- `Schedule.get_free_time_slots` with the constructor check collapsed:
an empty day returns the whole 09:00-21:00 working window; otherwise the
day's sorted events are walked with `freeSlotsStep` starting from a 09:00
cursor and the final gap is handled by `freeSlotsFinish`.  The empty-day
branch constructs no gap range at all, so on that branch this agrees with
`Schedule.get_free_time_slots_checked`, the full model of the method
including the constructor's ValueError. -/
def Schedule.get_free_time_slots (s : Schedule) (day : Int) (slot_duration : Int) :
    List TimeRange :=
  if (s.get_events_on_day day).isEmpty then
    [{ start_time := ⟨9, 0, 0⟩, end_time := ⟨21, 0, 0⟩ }]
  else
    freeSlotsFinish slot_duration
      ((s.get_events_on_day day).foldl (freeSlotsStep slot_duration) ([], ⟨9, 0, 0⟩))

/-- The loop body of `Schedule.get_free_time_slots` with the constructor
check kept: `free_slots.append(TimeRange(current_time, event_start))` goes
through `TimeRange.make`, and a ValueError (an inverted gap, reachable
only for non-positive `slot_duration`) aborts the whole call as `none`
before the cursor moves. -/
def freeSlotsStepChecked (slot_duration : Int) (acc : List TimeRange × Time)
    (event : Event) : Option (List TimeRange × Time) :=
  if slot_duration ≤ Time.difference_in_minutes event.time_range.start_time acc.2 then
    (TimeRange.make acc.2 event.time_range.start_time).map
      (fun slot =>
        (acc.1 ++ [slot],
         if Time.is_after event.time_range.end_time acc.2
         then event.time_range.end_time else acc.2))
  else
    some (acc.1,
      if Time.is_after event.time_range.end_time acc.2
      then event.time_range.end_time else acc.2)

/-- The code after the loop of `Schedule.get_free_time_slots` with the
constructor check kept: the final cursor-to-21:00 slot also goes through
`TimeRange.make`. -/
def freeSlotsFinishChecked (slot_duration : Int) (r : List TimeRange × Time) :
    Option (List TimeRange) :=
  if slot_duration ≤ Time.difference_in_minutes ⟨21, 0, 0⟩ r.2 then
    (TimeRange.make r.2 ⟨21, 0, 0⟩).map (fun slot => r.1 ++ [slot])
  else some r.1

/-- `Schedule.get_free_time_slots`, full model: a normally returned slot
list is `some`, and the ValueError that `TimeRange.__init__` raises on an
inverted gap is `none`.  The empty day returns the whole 09:00-21:00
window; otherwise the day's sorted events are walked with
`freeSlotsStepChecked` from a 09:00 cursor (a raise aborts the loop) and
the final gap is handled by `freeSlotsFinishChecked`. -/
def Schedule.get_free_time_slots_checked (s : Schedule) (day : Int)
    (slot_duration : Int) : Option (List TimeRange) :=
  if (s.get_events_on_day day).isEmpty then
    some [{ start_time := ⟨9, 0, 0⟩, end_time := ⟨21, 0, 0⟩ }]
  else
    ((s.get_events_on_day day).foldlM (freeSlotsStepChecked slot_duration)
        ([], ⟨9, 0, 0⟩)).bind
      (freeSlotsFinishChecked slot_duration)

/-- The walk described by the specification sentence for free-slot
computation, written as a recursion over the day's events: emit the gap
from the cursor to the event's start when it is at least `m` minutes (the
slot being built by the fallible `TimeRange` constructor, whose error
aborts the walk), advance the cursor to the event's end only when that end
exceeds the cursor, and finally emit the slot from the cursor to 21:00
when it is at least `m` minutes, again through the constructor. -/
def claimedFreeWalkChecked (m : Int) (cursor : Time) :
    List Event → Option (List TimeRange)
  | [] =>
      if m ≤ Time.difference_in_minutes ⟨21, 0, 0⟩ cursor then
        (TimeRange.make cursor ⟨21, 0, 0⟩).map (fun slot => [slot])
      else some []
  | e :: rest =>
      if m ≤ Time.difference_in_minutes e.time_range.start_time cursor then
        (TimeRange.make cursor e.time_range.start_time).bind
          (fun slot =>
            (claimedFreeWalkChecked m
                (if Time.is_after e.time_range.end_time cursor
                 then e.time_range.end_time else cursor) rest).map
              (fun slots => slot :: slots))
      else
        claimedFreeWalkChecked m
          (if Time.is_after e.time_range.end_time cursor
           then e.time_range.end_time else cursor) rest

theorem freeSlotsChecked_foldlM_eq (m : Int) :
    ∀ (l : List Event) (acc : List TimeRange) (cur : Time),
      (l.foldlM (freeSlotsStepChecked m) (acc, cur)).bind (freeSlotsFinishChecked m)
        = (claimedFreeWalkChecked m cur l).map (fun slots => acc ++ slots) := by
  intro l
  induction l with
  | nil =>
    intro acc cur
    simp only [List.foldlM_nil]
    unfold freeSlotsFinishChecked claimedFreeWalkChecked
    by_cases h : m ≤ Time.difference_in_minutes ⟨21, 0, 0⟩ cur
    · cases hmk : TimeRange.make cur ⟨21, 0, 0⟩ <;> simp [h, hmk]
    · simp [h]
  | cons e rest ih =>
    intro acc cur
    rw [List.foldlM_cons]
    by_cases hgap : m ≤ Time.difference_in_minutes e.time_range.start_time cur
    · cases hmk : TimeRange.make cur e.time_range.start_time with
      | none =>
        simp [freeSlotsStepChecked, claimedFreeWalkChecked, hgap, hmk]
      | some slot =>
        simp only [freeSlotsStepChecked, claimedFreeWalkChecked, hgap, hmk,
          if_pos, Option.map_some', Option.some_bind, Option.bind_eq_bind]
        rw [ih]
        cases claimedFreeWalkChecked m
            (if Time.is_after e.time_range.end_time cur
             then e.time_range.end_time else cur) rest <;>
          simp [List.append_assoc]
    · simp only [freeSlotsStepChecked, claimedFreeWalkChecked, hgap,
        if_neg, Option.some_bind]
      exact ih acc _

/-- C3: a day with zero events yields exactly one free slot, the whole
09:00-21:00 working window, for every minimum duration `m`. -/
theorem free_time_slots_empty_day (s : Schedule) (d m : Int)
    (h : s.get_events_on_day d = []) :
    s.get_free_time_slots d m
      = [{ start_time := ⟨9, 0, 0⟩, end_time := ⟨21, 0, 0⟩ }] := by
  unfold Schedule.get_free_time_slots
  rw [h]
  rfl

theorem free_time_slots_empty_day_witness :
    Schedule.empty.get_free_time_slots 0 9999
      = [{ start_time := ⟨9, 0, 0⟩, end_time := ⟨21, 0, 0⟩ }] :=
  free_time_slots_empty_day Schedule.empty 0 9999 rfl

/-- A 14:00-15:00 appointment on day 0, the second event of the free-slot
example of the specification. -/
def evtC : Event :=
  { eid := 3, etype := "Appointment", title := "C", day := 0,
    time_range := { start_time := ⟨14, 0, 0⟩, end_time := ⟨15, 0, 0⟩ },
    description := "", priority := .medium, status := .scheduled,
    tags := [], notes := "" }

/-- The schedule of the free-slot example: events 10:00-11:00 (`evtA`) and
14:00-15:00 (`evtC`) on day 0. -/
def scheduleC4 : Schedule := runOps [.add evtA false, .add evtC false]

/-- An 08:00-08:30 appointment on day 0: it lies before the 09:00 window
start, so with a negative min_duration the gap test passes while the gap
range is inverted, and the method raises ValueError. -/
def evtF : Event :=
  { eid := 6, etype := "Appointment", title := "F", day := 0,
    time_range := { start_time := ⟨8, 0, 0⟩, end_time := ⟨8, 30, 0⟩ },
    description := "", priority := .medium, status := .scheduled,
    tags := [], notes := "" }

/-- A schedule holding only the 08:00-08:30 event `evtF`. -/
def scheduleErr : Schedule := runOps [.add evtF false]

/-- C4 (amended): on a day with at least one event the free slots are the
walk the claim describes (gap emitted when at least `m` minutes, cursor
advanced only past event ends that exceed it, final gap to 21:00), each
slot built by the fallible `TimeRange` constructor so that a walk reaching
an inverted gap raises instead of returning; for the 10:00-11:00 and
14:00-15:00 example with m=60 this gives 09:00-10:00, 11:00-14:00 and
15:00-21:00, with m=200 only 15:00-21:00 (the 11:00-14:00 gap is 180
minutes, below 200, while the final 360-minute gap survives), and for a
lone 08:00-08:30 event with m=-60 the call raises ValueError. -/
theorem free_time_slots_walk :
    (∀ (s : Schedule) (d m : Int), s.get_events_on_day d ≠ [] →
      (s.get_events_on_day d).Pairwise (fun a b => a.conflicts_with b = false) →
      s.get_free_time_slots_checked d m
        = claimedFreeWalkChecked m ⟨9, 0, 0⟩ (s.get_events_on_day d)) ∧
    scheduleC4.get_free_time_slots_checked 0 60
      = some [{ start_time := ⟨9, 0, 0⟩, end_time := ⟨10, 0, 0⟩ },
              { start_time := ⟨11, 0, 0⟩, end_time := ⟨14, 0, 0⟩ },
              { start_time := ⟨15, 0, 0⟩, end_time := ⟨21, 0, 0⟩ }] ∧
    scheduleC4.get_free_time_slots_checked 0 200
      = some [{ start_time := ⟨15, 0, 0⟩, end_time := ⟨21, 0, 0⟩ }] ∧
    scheduleErr.get_free_time_slots_checked 0 (-60) = none := by
  refine ⟨?_, by decide, by decide, by decide⟩
  intro s d m hne _hdisj
  unfold Schedule.get_free_time_slots_checked
  rw [if_neg (by simpa [List.isEmpty_iff] using hne)]
  rw [freeSlotsChecked_foldlM_eq m (s.get_events_on_day d) [] ⟨9, 0, 0⟩]
  cases claimedFreeWalkChecked m ⟨9, 0, 0⟩ (s.get_events_on_day d) <;> simp

theorem free_time_slots_walk_witness :
    scheduleC4.get_free_time_slots_checked 0 60
      = claimedFreeWalkChecked 60 ⟨9, 0, 0⟩ (scheduleC4.get_events_on_day 0) :=
  free_time_slots_walk.1 scheduleC4 0 60 (by decide) (by decide)

/-- C4 counterexample: with min_duration 200, the 11:00-14:00 gap lasts
only 180 minutes and is dropped, while the 15:00-21:00 gap is kept, so the
call returns normally with `[15:00-21:00]`, not the claimed
`[11:00-14:00]`. -/
theorem free_time_slots_min200_counterexample :
    scheduleC4.get_free_time_slots_checked 0 200
        ≠ some [{ start_time := ⟨11, 0, 0⟩, end_time := ⟨14, 0, 0⟩ }] ∧
    scheduleC4.get_free_time_slots_checked 0 200
        = some [{ start_time := ⟨15, 0, 0⟩, end_time := ⟨21, 0, 0⟩ }] := by
  decide

/-- The tuple order on the sort key of `Schedule.get_upcoming_events`:
`key=lambda e: (e.day, e.time_range.start_time)`, compared
lexicographically. -/
def eventDayStartLE (a b : Event) : Prop :=
  a.day < b.day ∨ (a.day = b.day ∧ eventStartLE a b)

instance : DecidableRel eventDayStartLE := fun a b =>
  inferInstanceAs (Decidable (a.day < b.day ∨ (a.day = b.day ∧ eventStartLE a b)))

/-- `Schedule.get_upcoming_events`: events with day at least `from_day`,
sorted by (day, start time), truncated when a limit is given. -/
def Schedule.get_upcoming_events (s : Schedule) (from_day : Int) (limit : Option Nat) :
    List Event :=
  let upcoming :=
    List.insertionSort eventDayStartLE (s.events.filter (fun e => from_day ≤ e.day))
  match limit with
  | some n => upcoming.take n
  | none => upcoming

/-- `Schedule.get_events_by_status`. -/
def Schedule.get_events_by_status (s : Schedule) (status : EventStatus) : List Event :=
  s.events.filter (fun e => e.status == status)

/-- `Schedule.get_events_by_type`. -/
def Schedule.get_events_by_type (s : Schedule) (event_type : String) : List Event :=
  s.events.filter (fun e => e.etype == event_type)

/-- `Schedule.get_total_scheduled_time` with no day argument: the sum of
all event durations. -/
def Schedule.get_total_scheduled_time (s : Schedule) : Int :=
  (s.events.map (fun e => e.get_duration_minutes)).sum

/-- The dictionary `Schedule.get_statistics` returns.  The empty-schedule
branch of the source returns only the four count keys; the remaining keys
are `none` in that case.  The per-type counts are the finite map sending a
type tag to its count, and the average duration is rational-valued (Python
float division). -/
structure Statistics where
  total_events : Nat
  upcoming_events : Nat
  completed_events : Nat
  cancelled_events : Nat
  events_by_type : Option (String → Nat)
  total_scheduled_minutes : Option Int
  average_event_duration : Option ℚ

/-- `Schedule.get_statistics`; `today` is the ambient date that
`Day.today()` supplies to `get_upcoming_events` in the non-empty branch. -/
def Schedule.get_statistics (s : Schedule) (today : Int) : Statistics :=
  if s.events = [] then
    { total_events := 0, upcoming_events := 0, completed_events := 0,
      cancelled_events := 0, events_by_type := none,
      total_scheduled_minutes := none, average_event_duration := none }
  else
    { total_events := s.events.length,
      upcoming_events := (s.get_upcoming_events today none).length,
      completed_events := (s.get_events_by_status .completed).length,
      cancelled_events := (s.get_events_by_status .cancelled).length,
      events_by_type := some (fun ty => (s.get_events_by_type ty).length),
      total_scheduled_minutes := some s.get_total_scheduled_time,
      average_event_duration :=
        some ((s.events.map (fun e => (e.get_duration_minutes : ℚ))).sum
                / (s.events.length : ℚ)) }

/-- C5: on an empty schedule `get_statistics` reports zero total events and
never performs the average-duration division (that field is only computed
in the non-empty branch, where the divisor, the event count, is provably
non-zero). -/
theorem statistics_empty_schedule :
    (∀ (s : Schedule) (today : Int), s.events = [] →
      (s.get_statistics today).total_events = 0 ∧
      (s.get_statistics today).average_event_duration = none) ∧
    (∀ s : Schedule, s.events ≠ [] → ((s.events.length : ℚ) ≠ 0)) := by
  constructor
  · intro s today h
    simp [Schedule.get_statistics, h]
  · intro s h
    have hpos : 0 < s.events.length := List.length_pos.mpr h
    exact_mod_cast Nat.pos_iff_ne_zero.mp hpos

theorem statistics_empty_schedule_witness :
    ((Schedule.empty.get_statistics 0).total_events = 0 ∧
     (Schedule.empty.get_statistics 0).average_event_duration = none) ∧
    ((scheduleC4.events.length : ℚ) ≠ 0) :=
  ⟨statistics_empty_schedule.1 Schedule.empty 0 rfl,
   statistics_empty_schedule.2 scheduleC4 (by decide)⟩

/-- C7: `conflicts_with` returns false across different days even for
identical ranges, returns true on a shared day with overlapping ranges,
and is symmetric. -/
theorem conflicts_with_day_overlap :
    (∀ a b : Event, a.day ≠ b.day → a.conflicts_with b = false) ∧
    (∀ a b : Event, a.day = b.day →
      a.time_range.overlaps_with b.time_range = true →
      a.conflicts_with b = true) ∧
    (∀ a b : Event, a.conflicts_with b = b.conflicts_with a) := by
  refine ⟨?_, ?_, ?_⟩
  · intro a b h
    simp [Event.conflicts_with, h]
  · intro a b hday hov
    simp [Event.conflicts_with, hday, hov]
  · intro a b
    by_cases h : a.day = b.day
    · simp [Event.conflicts_with, h, TimeRange.overlaps_with_comm]
    · have h2 : ¬ b.day = a.day := fun hb => h hb.symm
      simp [Event.conflicts_with, h, h2]

/-- An event on day 1 whose time range equals that of `evtA` (which is on
day 0): same range, different day. -/
def evtD : Event :=
  { eid := 4, etype := "Appointment", title := "D", day := 1,
    time_range := { start_time := ⟨10, 0, 0⟩, end_time := ⟨11, 0, 0⟩ },
    description := "", priority := .medium, status := .scheduled,
    tags := [], notes := "" }

theorem conflicts_with_day_overlap_witness :
    evtD.conflicts_with evtA = false ∧ evtA.conflicts_with evtB = true :=
  ⟨conflicts_with_day_overlap.1 evtD evtA (by decide),
   conflicts_with_day_overlap.2.1 evtA evtB rfl (by decide)⟩

theorem get_conflicting_ne_nil_iff {s : Schedule} (hs : s.Consistent) (e : Event) :
    s.get_conflicting_events e ≠ [] ↔
      ∃ x ∈ s.events, x ≠ e ∧ x.day = e.day ∧
        x.time_range.overlaps_with e.time_range = true := by
  unfold Schedule.get_conflicting_events
  constructor
  · intro h
    obtain ⟨x, hx⟩ := List.exists_mem_of_ne_nil _ h
    rw [List.mem_filter] at hx
    obtain ⟨hmem, hpred⟩ := hx
    rw [Schedule.get_events_on_day, List.mem_insertionSort, hs e.day,
      List.mem_filter] at hmem
    obtain ⟨hev, hday⟩ := hmem
    have hday' : x.day = e.day := by simpa using hday
    simp only [Bool.and_eq_true, Bool.not_eq_true', beq_eq_false_iff_ne, ne_eq] at hpred
    obtain ⟨hne, hconf⟩ := hpred
    rw [Event.conflicts_with, if_neg (by simp [hday'])] at hconf
    exact ⟨x, hev, hne, hday', by rwa [TimeRange.overlaps_with_comm]⟩
  · rintro ⟨x, hev, hne, hday, hov⟩
    apply List.ne_nil_of_mem (a := x)
    rw [List.mem_filter]
    refine ⟨?_, ?_⟩
    · rw [Schedule.get_events_on_day, List.mem_insertionSort, hs e.day,
        List.mem_filter]
      exact ⟨hev, by simp [hday]⟩
    · simp only [Bool.and_eq_true, Bool.not_eq_true', beq_eq_false_iff_ne, ne_eq]
      refine ⟨hne, ?_⟩
      rw [Event.conflicts_with, if_neg (by simp [hday])]
      rwa [TimeRange.overlaps_with_comm]

/-- C6 (amended): with check_conflicts=true, `add_event` fails and leaves
the event list and the day index completely unchanged exactly when some
already-registered event other than `e` itself (object identity) on `e`'s
day overlaps `e`'s time range; without such a conflict, or with
check_conflicts=false, it returns true and appends `e` to the event list
and to the day bucket for `e.day`. -/
theorem add_event_conflict_check (s : Schedule) (e : Event) (hs : s.Consistent) :
    ((∃ x ∈ s.events, x ≠ e ∧ x.day = e.day ∧
        x.time_range.overlaps_with e.time_range = true) →
      s.add_event e true = (false, s)) ∧
    ((¬ ∃ x ∈ s.events, x ≠ e ∧ x.day = e.day ∧
        x.time_range.overlaps_with e.time_range = true) →
      s.add_event e true = (true, s.appendEvent e)) ∧
    s.add_event e false = (true, s.appendEvent e) := by
  refine ⟨?_, ?_, rfl⟩
  · intro h
    have hne := (get_conflicting_ne_nil_iff hs e).mpr h
    have hE : (s.get_conflicting_events e).isEmpty = false := by
      rcases hemp : (s.get_conflicting_events e).isEmpty with _ | _
      · rfl
      · exact absurd (List.isEmpty_iff.mp hemp) hne
    rw [Schedule.add_event, hE]
    rfl
  · intro h
    have hnil : s.get_conflicting_events e = [] := by
      by_contra hne
      exact h ((get_conflicting_ne_nil_iff hs e).mp hne)
    have hE : (s.get_conflicting_events e).isEmpty = true :=
      List.isEmpty_iff.mpr hnil
    rw [Schedule.add_event, hE]
    rfl

/-- A schedule already holding `evtA`. -/
def scheduleC6 : Schedule := runOps [.add evtA false]

/-- An event overlapping `evtA`: 10:30-11:30 on day 0. -/
def evtE : Event :=
  { eid := 5, etype := "Appointment", title := "E", day := 0,
    time_range := { start_time := ⟨10, 30, 0⟩, end_time := ⟨11, 30, 0⟩ },
    description := "", priority := .medium, status := .scheduled,
    tags := [], notes := "" }

theorem add_event_conflict_check_witness :
    scheduleC6.add_event evtE true = (false, scheduleC6) :=
  (add_event_conflict_check scheduleC6 evtE (consistent_runOps [.add evtA false])).1
    ⟨evtA, by decide⟩

/-- C6 counterexample: `evtA` is already registered in `scheduleC6` and its
range overlaps itself, yet `add_event(evtA, check_conflicts=True)` (adding
the very same object again) succeeds, because `get_conflicting_events`
identity-excludes the candidate, so a conflicting already-registered event
does not always make the call fail. -/
theorem add_event_readd_counterexample :
    (∃ x ∈ scheduleC6.events, x.day = evtA.day ∧
      x.time_range.overlaps_with evtA.time_range = true) ∧
    (scheduleC6.add_event evtA true).1 = true := by
  decide

/-- The `Chore` subclass of events.py, carrying the base `Event` fields it
inherits plus its own.  Chores in these claims are standalone values, so
no identity tag is needed. -/
structure Chore where
  title : String
  day : Int
  time_range : TimeRange
  description : String
  priority : EventPriority
  status : EventStatus
  tags : List String
  notes : String
  category : String
  is_recurring : Bool
  recurrence_days : Int
  estimated_effort : String
deriving DecidableEq, Repr

/-- The `Chore` constructor: `Event.__init__` fixes the initial status to
SCHEDULED; every other field is taken from the arguments. -/
def mkChore (title : String) (day : Int) (time_range : TimeRange)
    (category : String) (recurring : Bool) (recurrence_days : Int)
    (estimated_effort : String) (description : String)
    (priority : EventPriority) (tags : List String) (notes : String) : Chore :=
  { title := title, day := day, time_range := time_range,
    description := description, priority := priority,
    status := .scheduled, tags := tags, notes := notes,
    category := category, is_recurring := recurring,
    recurrence_days := recurrence_days, estimated_effort := estimated_effort }

/-- `Chore.get_next_occurrence`: None for a non-recurring chore; otherwise
a fresh `Chore` built by the constructor, dated `recurrence_days` later
(`self.day.date + timedelta(days=self.recurrence_days)`, which on day
ordinals is addition), with every other argument copied from `self`
(`tags` via `self.tags.copy()`, a by-value copy). -/
def Chore.get_next_occurrence (c : Chore) : Option Chore :=
  if !c.is_recurring then none
  else
    some (mkChore c.title (c.day + c.recurrence_days) c.time_range c.category
      c.is_recurring c.recurrence_days c.estimated_effort c.description
      c.priority c.tags c.notes)

/-- C8: for a recurring chore, `get_next_occurrence` yields a chore dated
`recurrence_days` days later whose title, category, time range, recurrence
settings, effort, description, priority, tags and notes all equal the
original's (the original, a pure value here, is not mutated). -/
theorem chore_next_occurrence (c : Chore) (h : c.is_recurring = true) :
    ∃ c2, c.get_next_occurrence = some c2 ∧
      c2.day = c.day + c.recurrence_days ∧
      c2.title = c.title ∧
      c2.category = c.category ∧
      c2.time_range = c.time_range ∧
      c2.is_recurring = c.is_recurring ∧
      c2.recurrence_days = c.recurrence_days ∧
      c2.estimated_effort = c.estimated_effort ∧
      c2.description = c.description ∧
      c2.priority = c.priority ∧
      c2.tags = c.tags ∧
      c2.notes = c.notes :=
  ⟨mkChore c.title (c.day + c.recurrence_days) c.time_range c.category
      c.is_recurring c.recurrence_days c.estimated_effort c.description
      c.priority c.tags c.notes,
    by simp [Chore.get_next_occurrence, h],
    rfl, rfl, rfl, rfl, rfl, rfl, rfl, rfl, rfl, rfl, rfl⟩

/-- A weekly recurring chore on day 100 used to instantiate C8. -/
def choreW : Chore :=
  mkChore "Laundry" 100
    { start_time := ⟨9, 0, 0⟩, end_time := ⟨10, 0, 0⟩ }
    "Cleaning" true 7 "Low" "" .medium ["home"] ""

theorem chore_next_occurrence_witness :
    ∃ c2, choreW.get_next_occurrence = some c2 ∧
      c2.day = choreW.day + choreW.recurrence_days ∧
      c2.title = choreW.title ∧
      c2.category = choreW.category ∧
      c2.time_range = choreW.time_range ∧
      c2.is_recurring = choreW.is_recurring ∧
      c2.recurrence_days = choreW.recurrence_days ∧
      c2.estimated_effort = choreW.estimated_effort ∧
      c2.description = choreW.description ∧
      c2.priority = choreW.priority ∧
      c2.tags = choreW.tags ∧
      c2.notes = choreW.notes :=
  chore_next_occurrence choreW rfl

/-- The `DoctorAppointment` subclass with its `Appointment` and `Event`
fields. -/
structure DoctorAppointment where
  title : String
  day : Int
  time_range : TimeRange
  description : String
  priority : EventPriority
  status : EventStatus
  tags : List String
  notes : String
  location : String
  attendees : List String
  reminder_minutes : Int
  doctor_name : String
  specialty : String
  insurance_required : Bool
  medical_notes : String
deriving DecidableEq, Repr

/-- The `DoctorAppointment` constructor.  `priorityArg` is the optional
`priority` keyword: `Event.__init__` applies its MEDIUM default when it is
absent, then `DoctorAppointment.__init__` overrides the stored priority to
HIGH exactly when the keyword was not in `kwargs`. -/
def mkDoctorAppointment (title : String) (day : Int) (time_range : TimeRange)
    (doctor_name specialty : String) (insurance_required : Bool)
    (medical_notes location : String) (attendees : List String)
    (reminder_minutes : Int) (description : String)
    (priorityArg : Option EventPriority) (tags : List String)
    (notes : String) : DoctorAppointment :=
  let basePriority := priorityArg.getD EventPriority.medium
  let finalPriority :=
    if priorityArg.isNone then EventPriority.high else basePriority
  { title := title, day := day, time_range := time_range,
    description := description, priority := finalPriority,
    status := .scheduled, tags := tags, notes := notes,
    location := location, attendees := attendees,
    reminder_minutes := reminder_minutes, doctor_name := doctor_name,
    specialty := specialty, insurance_required := insurance_required,
    medical_notes := medical_notes }

/-- C9: a DoctorAppointment built without a priority argument gets HIGH
priority (overriding the inherited MEDIUM default), and one built with an
explicit priority `p` gets exactly `p`. -/
theorem doctor_appointment_priority_default :
    (∀ (title : String) (day : Int) (tr : TimeRange) (dn sp : String)
        (ir : Bool) (mn loc : String) (att : List String) (rm : Int)
        (desc : String) (tags : List String) (nts : String),
      (mkDoctorAppointment title day tr dn sp ir mn loc att rm desc
          none tags nts).priority = EventPriority.high) ∧
    (∀ (title : String) (day : Int) (tr : TimeRange) (dn sp : String)
        (ir : Bool) (mn loc : String) (att : List String) (rm : Int)
        (desc : String) (p : EventPriority) (tags : List String)
        (nts : String),
      (mkDoctorAppointment title day tr dn sp ir mn loc att rm desc
          (some p) tags nts).priority = p) :=
  ⟨fun _ _ _ _ _ _ _ _ _ _ _ _ _ => rfl,
   fun _ _ _ _ _ _ _ _ _ _ _ _ _ _ => rfl⟩
